import Mathlib

/-!
Shallow embedding of the TraderDNA analytics engine
(`src/analysis/alpha_beta.py`, `src/analysis/risk_metrics.py`,
`src/analysis/time_decay.py`, `src/analysis/behavior_tags.py`, `src/config.py`)
together with proofs of the specification's testable properties.

Numeric modelling: pure arithmetic (no square roots) is embedded over `ℚ`;
the risk-metric calculator, whose formulas use `sqrt` and real exponents,
is embedded over `ℝ`.  Pandas/NumPy missing values (`NaN`) are modelled by
`Option`; `dropna` becomes `List.filterMap id`.
-/

namespace TraderDNA

/-! Part: Generic list statistics (shared by several modules)

`mean l` is `l.sum / len(l)`; `sampleCov a b` is NumPy's `np.cov(a, b)[0, 1]`
(denominator `n - 1`); `np.var(x, ddof=1)` is `sampleCov x x`.
-/

/-- Arithmetic mean of a list, `l.sum() / len(l)` (0 for the empty list,
by the `x / 0 = 0` convention). -/
def mean {α : Type} [Field α] (l : List α) : α :=
  l.sum / (l.length : α)

/-- Sample covariance with denominator `n - 1`: `np.cov(a, b)[0, 1]`. -/
def sampleCov {α : Type} [Field α] (a b : List α) : α :=
  (List.zipWith (fun x y => (x - mean a) * (y - mean b)) a b).sum /
    ((a.length : α) - 1)

/-- Sample variance with denominator `n - 1`: `np.var(x, ddof=1)`,
also pandas `Series.std() ** 2` (pandas `std` defaults to `ddof=1`). -/
def sampleVar {α : Type} [Field α] (l : List α) : α :=
  sampleCov l l

theorem zipWith_self {α β : Type} (f : α → α → β) :
    ∀ l : List α, List.zipWith f l l = l.map (fun x => f x x) := by
  intro l
  induction l with
  | nil => rfl
  | cons x xs ih => simp [List.zipWith, ih]

theorem sum_map_sub_const {α : Type} [Field α] (l : List α) (c : α) :
    (l.map (fun x => x - c)).sum = l.sum - (l.length : α) * c := by
  induction l with
  | nil => simp
  | cons x xs ih =>
      simp only [List.map_cons, List.sum_cons, ih, List.length_cons]
      push_cast
      ring

theorem mean_map_sub_const {α : Type} [LinearOrderedField α] (l : List α)
    (c : α) (hl : l ≠ []) :
    mean (l.map (fun x => x - c)) = mean l - c := by
  have hn : (l.length : α) ≠ 0 := by
    have h0 : l.length ≠ 0 := fun h => hl (List.length_eq_zero.mp h)
    exact_mod_cast h0
  unfold mean
  rw [List.length_map, sum_map_sub_const, sub_div, mul_comm,
    mul_div_assoc, div_self hn, mul_one]

/-- Shift invariance of the sample variance: subtracting a constant from
every entry (e.g. the daily risk-free rate) does not change it. -/
theorem sampleVar_map_sub_const {α : Type} [LinearOrderedField α] (l : List α) (c : α) :
    sampleVar (l.map (fun x => x - c)) = sampleVar l := by
  rcases eq_or_ne l [] with rfl | hl
  · rfl
  · unfold sampleVar sampleCov
    rw [mean_map_sub_const l c hl, zipWith_self, zipWith_self, List.map_map,
      List.length_map]
    congr 1
    congr 1
    apply List.map_congr_left
    intro x _
    simp only [Function.comp_apply]
    ring

theorem mean_of_constant {α : Type} [LinearOrderedField α] {l : List α}
    {c : α} (hl : l ≠ []) (h : ∀ x ∈ l, x = c) : mean l = c := by
  have hn : (l.length : α) ≠ 0 := by
    have h0 : l.length ≠ 0 := fun h => hl (List.length_eq_zero.mp h)
    exact_mod_cast h0
  have hsum : l.sum = l.length • c := List.sum_eq_card_nsmul l c h
  unfold mean
  rw [hsum, nsmul_eq_mul, mul_comm, mul_div_assoc, div_self hn, mul_one]

theorem sampleVar_of_constant {α : Type} [LinearOrderedField α] {l : List α}
    {c : α} (h : ∀ x ∈ l, x = c) : sampleVar l = 0 := by
  rcases eq_or_ne l [] with rfl | hl
  · simp [sampleVar, sampleCov]
  · unfold sampleVar sampleCov
    rw [mean_of_constant hl h, zipWith_self]
    have hz : ∀ y ∈ l.map (fun x => (x - c) * (x - c)), y = 0 := by
      intro y hy
      rcases List.mem_map.mp hy with ⟨x, hx, rfl⟩
      rw [h x hx]; ring
    rw [List.sum_eq_zero hz, zero_div]

/-! Part: `src/analysis/alpha_beta.py` -/

/-- Result dictionary of `calculate_alpha_beta`. -/
structure AttributionResult where
  alpha : ℚ
  beta : ℚ
  alpha_pct : ℚ
  beta_pct : ℚ
  alpha_contribution : ℚ
  beta_contribution : ℚ
  total_return : ℚ
  deriving DecidableEq, Repr

/-- The zero-filled dictionary returned on empty / insufficiently aligned
input (lines 33–41 and 47–55 of `alpha_beta.py`). -/
def zeroAttribution : AttributionResult :=
  ⟨0, 0, 0, 0, 0, 0, 0⟩

/-- Source `_calculate_alpha_beta_manual`: CAPM beta and annualized alpha.
`beta = Cov(Rp, Rm) / Var(Rm)` (0 when the variance is not positive),
`alpha = (mean(wallet_excess) - beta * mean(eth_excess)) * 252`. -/
def calculate_alpha_beta_manual (wallet_returns eth_returns : List ℚ)
    (risk_free_rate : ℚ) : ℚ × ℚ :=
  let rf_daily := risk_free_rate / 252
  let wallet_excess := wallet_returns.map (fun x => x - rf_daily)
  let eth_excess := eth_returns.map (fun x => x - rf_daily)
  let covariance := sampleCov wallet_excess eth_excess
  let variance := sampleVar eth_excess
  let beta := if 0 < variance then covariance / variance else 0
  let alpha := (mean wallet_excess - beta * mean eth_excess) * 252
  (beta, alpha)

/-- A time-indexed return series: ordered (timestamp, daily return) pairs.
A pandas `Series`; a timestamp absent from the index is a missing value. -/
abbrev ReturnSeries := List (ℤ × ℚ)

/-- Index lookup in a series (first entry with the given timestamp). -/
def lookupTs (t : ℤ) (s : ReturnSeries) : Option ℚ :=
  (s.find? (fun p => p.1 = t)).map Prod.snd

/-- Source `pd.concat([wallet, eth], axis=1).dropna()`: the timestamps of the
wallet series that also appear in the benchmark series, with both values. -/
def alignSeries (wallet eth : ReturnSeries) : List (ℚ × ℚ) :=
  wallet.filterMap (fun p => (lookupTs p.1 eth).map (fun y => (p.2, y)))

/-- Source `∏ (1 + r) - 1` over a list of returns: `(1 + returns).prod() - 1`. -/
def totalReturnOf (l : List ℚ) : ℚ :=
  (l.map (fun r => 1 + r)).prod - 1

/-- Source `calculate_alpha_beta` (`alpha_beta.py`, lines 16–89). -/
def calculate_alpha_beta (wallet_returns eth_returns : ReturnSeries)
    (risk_free_rate : ℚ) : AttributionResult :=
  if wallet_returns = [] ∨ eth_returns = [] then zeroAttribution
  else
    let aligned := alignSeries wallet_returns eth_returns
    if aligned.length < 2 then zeroAttribution
    else
      let wallet_ret := aligned.map Prod.fst
      let eth_ret := aligned.map Prod.snd
      let ba := calculate_alpha_beta_manual wallet_ret eth_ret risk_free_rate
      let total_return := totalReturnOf wallet_ret
      let eth_total_return := totalReturnOf eth_ret
      let beta_contribution := ba.1 * eth_total_return
      let alpha_contribution := total_return - beta_contribution
      let alpha_pct :=
        if 1 / 10000 < |total_return| then alpha_contribution / total_return * 100
        else 0
      let beta_pct :=
        if 1 / 10000 < |total_return| then beta_contribution / total_return * 100
        else 0
      { alpha := ba.2, beta := ba.1, alpha_pct := alpha_pct,
        beta_pct := beta_pct, alpha_contribution := alpha_contribution,
        beta_contribution := beta_contribution, total_return := total_return }

/-! Part: `src/analysis/risk_metrics.py`

Embedded over `ℝ` because the source formulas use `sqrt` and a real
exponent.  `profit_factor` is an extended real (`EReal`) so that the
source's `float('inf')` branch is representable.
-/

/-- Result dictionary of `calculate_risk_metrics`. -/
structure RiskMetrics where
  sharpe_ratio : ℝ
  sortino_ratio : ℝ
  max_drawdown : ℝ
  calmar_ratio : ℝ
  annual_return : ℝ
  annual_volatility : ℝ
  win_rate : ℝ
  profit_factor : EReal
  expected_value : ℝ
  max_win_streak : ℕ
  max_loss_streak : ℕ

/-- Source `_empty_metrics`: the all-zero dictionary. -/
def empty_metrics : RiskMetrics :=
  ⟨0, 0, 0, 0, 0, 0, 0, 0, 0, 0, 0⟩

/-- Running products with initial accumulator `a` (helper for `cumprod`). -/
def scanProd {α : Type} [Mul α] (a : α) : List α → List α
  | [] => [a]
  | x :: xs => a :: scanProd (a * x) xs

/-- pandas `Series.cumprod()`. -/
def cumprod {α : Type} [Mul α] : List α → List α
  | [] => []
  | x :: xs => scanProd x xs

/-- Running maxima with initial accumulator `a` (helper for `cummax`). -/
def scanMax {α : Type} [LinearOrder α] (a : α) : List α → List α
  | [] => [a]
  | x :: xs => a :: scanMax (max a x) xs

/-- pandas `Series.cummax()`. -/
def cummax {α : Type} [LinearOrder α] : List α → List α
  | [] => []
  | x :: xs => scanMax x xs

/-- pandas `Series.min()` (0 on the empty series, which the caller never
builds: the drawdown series below is nonempty whenever `returns` is). -/
def listMin {α : Type} [LinearOrder α] (d : α) : List α → α
  | [] => d
  | x :: xs => xs.foldl min x

/-- pandas `Series.std()` (sample standard deviation, `ddof=1`). -/
noncomputable def stdDev (l : List ℝ) : ℝ :=
  Real.sqrt (sampleVar l)

/-- The six metrics computed by `_calculate_manually`
(`risk_metrics.py`, lines 65–112). -/
structure ManualMetrics where
  sharpe_ratio : ℝ
  sortino_ratio : ℝ
  max_drawdown : ℝ
  calmar_ratio : ℝ
  annual_return : ℝ
  annual_volatility : ℝ

/-- Source `_calculate_manually` (`risk_metrics.py`, lines 65–112). -/
noncomputable def calculate_manually (returns : List ℝ)
    (risk_free_rate : ℝ) (periods_per_year : ℕ) : ManualMetrics :=
  let daily_rf := risk_free_rate / (periods_per_year : ℝ)
  let total_return := (returns.map (fun r => 1 + r)).prod - 1
  let n_periods := returns.length
  let annual_return :=
    (1 + total_return) ^ ((periods_per_year : ℝ) / (n_periods : ℝ)) - 1
  let annual_volatility := stdDev returns * Real.sqrt (periods_per_year : ℝ)
  let excess_returns := returns.map (fun x => x - daily_rf)
  let sharpe_ratio :=
    if 0 < annual_volatility then
      mean excess_returns * (periods_per_year : ℝ) / annual_volatility
    else 0
  let downside_returns := returns.filter (fun x => x < daily_rf)
  let sortino_ratio :=
    if 0 < downside_returns.length then
      let downside_std := stdDev downside_returns * Real.sqrt (periods_per_year : ℝ)
      if 0 < downside_std then
        mean excess_returns * (periods_per_year : ℝ) / downside_std
      else 0
    else 0
  let cumulative := cumprod (returns.map (fun r => 1 + r))
  let running_max := cummax cumulative
  let drawdown := List.zipWith (fun c m => (c - m) / m) cumulative running_max
  let max_drawdown := listMin 0 drawdown
  let calmar_ratio :=
    if 1 / 10000 < |max_drawdown| then annual_return / |max_drawdown| else 0
  ⟨ sharpe_ratio, sortino_ratio, max_drawdown, calmar_ratio,
    annual_return, annual_volatility⟩

/-- Tail-recursive run-length maximum (current run, best so far). -/
def maxStreakAux (cur best : ℕ) : List Bool → ℕ
  | [] => best
  | b :: t =>
      if b then maxStreakAux (cur + 1) (max best (cur + 1)) t
      else maxStreakAux 0 best t

/-- Source `max_streak` of `_calculate_streaks`: the pandas
`groupby((s != s.shift()).cumsum()).sum().max()` idiom on a 0/1 series
computes the length of the longest run of 1s (0 when there is none). -/
def maxStreak (l : List Bool) : ℕ :=
  maxStreakAux 0 0 l

/-- Source `_calculate_streaks` (`risk_metrics.py`, lines 146–158). -/
noncomputable def calculate_streaks (returns : List ℝ) : ℕ × ℕ :=
  (maxStreak (returns.map (fun x => decide (0 < x))),
   maxStreak (returns.map (fun x => decide (x < 0))))

/-- The five metrics computed by `_calculate_additional_metrics`
(`risk_metrics.py`, lines 115–143). -/
structure AdditionalMetrics where
  win_rate : ℝ
  profit_factor : EReal
  expected_value : ℝ
  max_win_streak : ℕ
  max_loss_streak : ℕ

/-- Source `_calculate_additional_metrics` (`risk_metrics.py`, lines 115–143).
`win_rate` is `(returns > 0).mean()`, the fraction of positive entries. -/
noncomputable def calculate_additional_metrics (returns : List ℝ) :
    AdditionalMetrics :=
  let win_rate :=
    ((returns.filter (fun x => 0 < x)).length : ℝ) / (returns.length : ℝ)
  let winning_returns := returns.filter (fun x => 0 < x)
  let losing_returns := returns.filter (fun x => x < 0)
  let profit_factor : EReal :=
    if 0 < winning_returns.length ∧ 0 < losing_returns.length then
      let avg_win := mean winning_returns
      let avg_loss := |mean losing_returns|
      if 0 < avg_loss then ((avg_win / avg_loss : ℝ) : EReal) else ⊤
    else 0
  let expected_value := mean returns
  let streaks := calculate_streaks returns
  ⟨win_rate, profit_factor, expected_value, streaks.1, streaks.2⟩

/-- Source `calculate_risk_metrics` (`risk_metrics.py`, lines 14–44).  The input
series may contain missing values (`none`); `dropna` keeps the rest.
(`returns_series.empty or len(returns_series) < 2` collapses to the single
length test.) -/
noncomputable def calculate_risk_metrics (returns_series : List (Option ℝ))
    (risk_free_rate : ℝ) (periods_per_year : ℕ) : RiskMetrics :=
  if returns_series.length < 2 then empty_metrics
  else
    let returns := returns_series.filterMap id
    if returns.length < 2 then empty_metrics
    else
      let m := calculate_manually returns risk_free_rate periods_per_year
      let a := calculate_additional_metrics returns
      ⟨ ManualMetrics.sharpe_ratio m, ManualMetrics.sortino_ratio m,
        m.max_drawdown, ManualMetrics.calmar_ratio m, m.annual_return,
        m.annual_volatility, a.win_rate, a.profit_factor, a.expected_value,
        a.max_win_streak, a.max_loss_streak⟩

/-! Part: `src/analysis/time_decay.py` -/

/-- A row of the trade ledger, restricted to the columns the analyzer
reads.  Timestamps are measured in days. -/
structure TradeRecord where
  timestamp : ℚ
  realized_pnl : ℚ
  deriving DecidableEq, Repr

/-- Per-window statistics (`time_decay.py`, lines 59–76). -/
structure PeriodStats where
  pnl : ℚ
  win_rate : ℚ
  trade_count : ℕ
  avg_pnl_per_trade : ℚ
  deriving DecidableEq, Repr

/-- The zero-filled window dictionary (lines 60–65 / 141–146). -/
def emptyPeriod : PeriodStats :=
  ⟨0, 0, 0, 0⟩

/-- Statistics of one window's trades (`time_decay.py`, lines 59–76). -/
def periodStats (period_df : List TradeRecord) : PeriodStats :=
  if period_df = [] then emptyPeriod
  else
    let pnl_series := period_df.map TradeRecord.realized_pnl
    let winning_trades := (pnl_series.filter (fun x => 0 < x)).length
    let total_trades := pnl_series.length
    ⟨pnl_series.sum, (winning_trades : ℚ) / (total_trades : ℚ),
      total_trades, mean pnl_series⟩

/-- Source `df[df[timestamp_column] >= now - delta]` for a window of `days` days. -/
def windowTrades (trades : List TradeRecord) (now days : ℚ) :
    List TradeRecord :=
  trades.filter (fun t => now - days ≤ t.timestamp)

/-- Result of `_calculate_decay_metrics` (`time_decay.py`, lines 84–136). -/
structure DecayMetrics where
  win_rate_decay_30d : ℚ
  win_rate_decay_7d : ℚ
  severe_decay_alert : Bool
  recent_losing : Bool
  recent_30d_pnl : ℚ
  activity_ratio : ℚ
  deriving DecidableEq, Repr

/-- Source `_calculate_decay_metrics` (`time_decay.py`, lines 84–136). -/
def calculate_decay_metrics (all_time recent_30d recent_7d : PeriodStats) :
    DecayMetrics :=
  let all_time_wr := all_time.win_rate
  let recent_30d_wr := recent_30d.win_rate
  let recent_7d_wr := recent_7d.win_rate
  let win_rate_decay_30d :=
    if 0 < all_time_wr then all_time_wr - recent_30d_wr else 0
  let win_rate_decay_7d :=
    if 0 < all_time_wr then all_time_wr - recent_7d_wr else 0
  let severe_decay :=
    if 0 < all_time_wr then decide (recent_30d_wr < all_time_wr * (7 / 10))
    else false
  let recent_losing := decide (recent_30d.pnl < 0)
  let activity_ratio :=
    if 0 < all_time.trade_count then
      let expected_30d_count : ℚ := (all_time.trade_count : ℚ) * 30 / 365
      if 0 < expected_30d_count then
        (recent_30d.trade_count : ℚ) / expected_30d_count
      else 1
    else 0
  ⟨win_rate_decay_30d, win_rate_decay_7d, severe_decay, recent_losing,
    recent_30d.pnl, activity_ratio⟩

/-- Full result of `time_decay_analysis`: the four windows plus the decay
metrics (field `last_90d` is the `"90d"` key, and so on). -/
structure TimeDecayResult where
  all_time : PeriodStats
  last_90d : PeriodStats
  last_30d : PeriodStats
  last_7d : PeriodStats
  decay_metrics : DecayMetrics
  deriving DecidableEq, Repr

/-- Source `_empty_result` (`time_decay.py`, lines 139–161). -/
def empty_result : TimeDecayResult :=
  ⟨emptyPeriod, emptyPeriod, emptyPeriod, emptyPeriod,
    ⟨0, 0, false, false, 0, 0⟩⟩

/-- Source `time_decay_analysis` (`time_decay.py`, lines 13–81), with the wall
clock `datetime.now()` passed explicitly as `now`. -/
def time_decay_analysis (trades_df : List TradeRecord) (now : ℚ) :
    TimeDecayResult :=
  if trades_df = [] then empty_result
  else
    let all_time := periodStats trades_df
    let r90 := periodStats (windowTrades trades_df now 90)
    let r30 := periodStats (windowTrades trades_df now 30)
    let r7 := periodStats (windowTrades trades_df now 7)
    ⟨all_time, r90, r30, r7, calculate_decay_metrics all_time r30 r7⟩

/-! Part: `src/analysis/behavior_tags.py` and `src/config.py`

Tags are identified by their key in the module's `TAGS` table; the emoji
and the formatted description string attached to each appended tag carry
no information beyond the tag identity and are elided.
-/

/-- Keys of the `TAGS` table (`behavior_tags.py`, lines 25–40). -/
inductive TagName where
  | diamond_hands
  | paper_hands
  | gambler
  | conservative
  | one_hit_wonder
  | one_token_pony
  | suspicious
  | whale
  | sniper
  | fomo_buyer
  | smart_money
  | declining
  | active_trader
  | dormant
  deriving DecidableEq, Repr

/-- Source `config.DIAMOND_HANDS_MIN_HOLD_HOURS = 7 * 24`. -/
def DIAMOND_HANDS_MIN_HOLD_HOURS : ℚ := 7 * 24

/-- Source `config.PAPER_HANDS_MAX_HOLD_HOURS = 24`. -/
def PAPER_HANDS_MAX_HOLD_HOURS : ℚ := 24

/-- Source `config.ONE_HIT_WONDER_THRESHOLD = 0.5`. -/
def ONE_HIT_WONDER_THRESHOLD : ℚ := 1 / 2

/-- Source `config.SUSPICIOUS_TIME_BEFORE_PUMP_MINUTES = 60`. -/
def SUSPICIOUS_TIME_BEFORE_PUMP_MINUTES : ℚ := 60

/-- Source `config.HIGH_FREQUENCY_THRESHOLD = 10`. -/
def HIGH_FREQUENCY_THRESHOLD : ℚ := 10

/-- Source `config.LOW_WIN_RATE_THRESHOLD = 0.4`. -/
def LOW_WIN_RATE_THRESHOLD : ℚ := 2 / 5

/-- The `analysis_results` dictionary consumed by
`generate_behavior_tags`; a `none` field is a missing key. -/
structure AnalysisResults where
  avg_hold_time : Option ℚ := none
  top_trade_contribution : Option ℚ := none
  top_token_contribution : Option ℚ := none
  avg_time_before_pump : Option ℚ := none
  trade_frequency : Option ℚ := none
  win_rate : Option ℚ := none
  profit_factor : Option ℚ := none
  sharpe_ratio : Option ℚ := none
  max_drawdown : Option ℚ := none
  alpha_pct : Option ℚ := none
  decay_alert : Option Bool := none
  recent_activity : Option Bool := none
  total_trades : Option ℕ := none
  avg_trade_value : Option ℚ := none
  deriving DecidableEq, Repr

/-- Hold-time rule (`behavior_tags.py`, lines 86–92): diamond hands,
elif paper hands. -/
def holdTimeTags (m : AnalysisResults) : List TagName :=
  let avg_hold_time := m.avg_hold_time.getD 0
  if DIAMOND_HANDS_MIN_HOLD_HOURS < avg_hold_time then [TagName.diamond_hands]
  else if avg_hold_time < PAPER_HANDS_MAX_HOLD_HOURS ∧ 0 < avg_hold_time then
    [TagName.paper_hands]
  else []

/-- One-hit-wonder rule (lines 95–98). -/
def oneHitTags (m : AnalysisResults) : List TagName :=
  if ONE_HIT_WONDER_THRESHOLD < m.top_trade_contribution.getD 0 then
    [TagName.one_hit_wonder]
  else []

/-- One-token-pony rule (lines 101–104): threshold 0.8 inline. -/
def oneTokenTags (m : AnalysisResults) : List TagName :=
  if (4 / 5 : ℚ) < m.top_token_contribution.getD 0 then
    [TagName.one_token_pony]
  else []

/-- Suspicious rule (lines 107–110).  A missing `avg_time_before_pump`
defaults to `float('inf')`, and `inf < 60` is false, so no tag. -/
def suspiciousTags (m : AnalysisResults) : List TagName :=
  match m.avg_time_before_pump with
  | some t =>
      if t < SUSPICIOUS_TIME_BEFORE_PUMP_MINUTES then [TagName.suspicious]
      else []
  | none => []

/-- Gambler rule (lines 119–128).  The `profit_factor > 1.5` sub-branch is
`pass` in the source (the sniper tag fetched there is discarded), so every
branch other than `profit_factor < 1.0` appends nothing. -/
def gamblerTags (m : AnalysisResults) : List TagName :=
  if HIGH_FREQUENCY_THRESHOLD < m.trade_frequency.getD 0 then
    if m.win_rate.getD 0 < LOW_WIN_RATE_THRESHOLD then
      if m.profit_factor.getD 0 < 1 then [TagName.gambler]
      else []
    else []
  else []

/-- Sniper rule (lines 131–133). -/
def sniperTags (m : AnalysisResults) : List TagName :=
  if 7 / 10 < m.win_rate.getD 0 ∧ m.trade_frequency.getD 0 < 5 ∧
      3 / 2 < m.profit_factor.getD 0 then
    [TagName.sniper]
  else []

/-- Getter for the `sharpe_ratio` key of the metrics dictionary. -/
def sharpeOf (m : AnalysisResults) : ℚ :=
  (AnalysisResults.sharpe_ratio m).getD 0

/-- Conservative rule (lines 136–140). -/
def conservativeTags (m : AnalysisResults) : List TagName :=
  if 2 < sharpeOf m ∧ |m.max_drawdown.getD 0| < 1 / 5 then
    [TagName.conservative]
  else []

/-- Smart-money rule (lines 143–146). -/
def smartMoneyTags (m : AnalysisResults) : List TagName :=
  if 60 < m.alpha_pct.getD 0 ∧ 3 / 5 < m.win_rate.getD 0 ∧
      3 / 2 < sharpeOf m then
    [TagName.smart_money]
  else []

/-- Declining rule (lines 149–151). -/
def decliningTags (m : AnalysisResults) : List TagName :=
  if m.decay_alert.getD false then [TagName.declining] else []

/-- Dormant / active-trader rule (lines 154–162): dormant, elif active. -/
def activityTags (m : AnalysisResults) : List TagName :=
  if ¬ m.recent_activity.getD true ∧ 0 < m.total_trades.getD 0 then
    [TagName.dormant]
  else if 5 < m.trade_frequency.getD 0 then [TagName.active_trader]
  else []

/-- Whale rule (lines 165–168): threshold 50000 inline. -/
def whaleTags (m : AnalysisResults) : List TagName :=
  if 50000 < m.avg_trade_value.getD 0 then [TagName.whale] else []

/-- Source `generate_behavior_tags` (`behavior_tags.py`, lines 61–170): the rules
fire independently, appending to one list in source order. -/
def generate_behavior_tags (analysis_results : AnalysisResults) :
    List TagName :=
  holdTimeTags analysis_results ++ oneHitTags analysis_results ++
    oneTokenTags analysis_results ++ suspiciousTags analysis_results ++
    gamblerTags analysis_results ++ sniperTags analysis_results ++
    conservativeTags analysis_results ++ smartMoneyTags analysis_results ++
    decliningTags analysis_results ++ activityTags analysis_results ++
    whaleTags analysis_results

/-! Part: properties of the attribution module (C1–C3) -/

theorem alignSeries_nil_left (e : ReturnSeries) : alignSeries [] e = [] :=
  rfl

theorem alignSeries_nil_right (w : ReturnSeries) : alignSeries w [] = [] := by
  simp [alignSeries, lookupTs]

/-- C1: for every pair of wallet/benchmark return series with at least two
aligned points, the result of `calculate_alpha_beta` satisfies
`alpha_contribution + beta_contribution = total_return` — exactly, over
`ℚ`, hence in particular within the spec's `1e-9` tolerance. -/
theorem C1_attribution_sum (wallet eth : ReturnSeries) (rf : ℚ)
    (h : 2 ≤ (alignSeries wallet eth).length) :
    (calculate_alpha_beta wallet eth rf).alpha_contribution +
      (calculate_alpha_beta wallet eth rf).beta_contribution =
      (calculate_alpha_beta wallet eth rf).total_return := by
  have hw : wallet ≠ [] := by
    rintro rfl
    rw [alignSeries_nil_left] at h
    exact absurd h (by decide)
  have he : eth ≠ [] := by
    rintro rfl
    rw [alignSeries_nil_right] at h
    exact absurd h (by decide)
  simp only [calculate_alpha_beta, if_neg (not_or.mpr ⟨hw, he⟩),
    if_neg (not_lt.mpr h)]
  ring

/-- Closed instance of C1 at a concrete pair of two-point series. -/
theorem C1_attribution_sum_witness :
    2 ≤ (alignSeries [((0 : ℤ), (1 / 10 : ℚ)), (1, 1 / 5)]
        [((0 : ℤ), (1 / 20 : ℚ)), (1, 3 / 10)]).length ∧
    (calculate_alpha_beta [((0 : ℤ), (1 / 10 : ℚ)), (1, 1 / 5)]
        [((0 : ℤ), (1 / 20 : ℚ)), (1, 3 / 10)] (1 / 25)).alpha_contribution +
      (calculate_alpha_beta [((0 : ℤ), (1 / 10 : ℚ)), (1, 1 / 5)]
        [((0 : ℤ), (1 / 20 : ℚ)), (1, 3 / 10)] (1 / 25)).beta_contribution =
      (calculate_alpha_beta [((0 : ℤ), (1 / 10 : ℚ)), (1, 1 / 5)]
        [((0 : ℤ), (1 / 20 : ℚ)), (1, 3 / 10)] (1 / 25)).total_return :=
  ⟨by decide, C1_attribution_sum _ _ _ (by decide)⟩

/-- C2: running the CAPM estimator with the wallet series equal to the
benchmark series yields `beta = 1` and `alpha = 0` exactly, for any series
of length at least 2 whose (sample) variance is non-zero. -/
theorem C2_self_benchmark_beta_one_alpha_zero (r : List ℚ) (rf : ℚ)
    (hlen : 2 ≤ r.length) (hvar : 0 < sampleVar r) :
    calculate_alpha_beta_manual r r rf = (1, 0) := by
  have hvar' : 0 < sampleVar (r.map (fun x => x - rf / 252)) := by
    rw [sampleVar_map_sub_const]; exact hvar
  have hne : sampleVar (r.map (fun x => x - rf / 252)) ≠ 0 := ne_of_gt hvar'
  simp only [calculate_alpha_beta_manual, if_pos hvar']
  have hb : sampleCov (r.map (fun x => x - rf / 252))
      (r.map (fun x => x - rf / 252)) /
      sampleVar (r.map (fun x => x - rf / 252)) = 1 := by
    rw [show sampleCov (r.map (fun x => x - rf / 252))
        (r.map (fun x => x - rf / 252)) =
        sampleVar (r.map (fun x => x - rf / 252)) from rfl, div_self hne]
  rw [hb]
  norm_num

/-- Evaluation of the sample variance of the series `[1/10, 3/10]`. -/
theorem sampleVar_example : sampleVar [(1 / 10 : ℚ), 3 / 10] = 1 / 50 := by
  norm_num [sampleVar, sampleCov, mean, List.zipWith]

/-- Closed instance of C2 at the series `[1/10, 3/10]`. -/
theorem C2_self_benchmark_witness :
    2 ≤ ([(1 / 10 : ℚ), 3 / 10]).length ∧
      0 < sampleVar [(1 / 10 : ℚ), 3 / 10] ∧
      calculate_alpha_beta_manual [(1 / 10 : ℚ), 3 / 10]
        [(1 / 10 : ℚ), 3 / 10] (1 / 25) = (1, 0) :=
  ⟨by decide, by rw [sampleVar_example]; norm_num,
    C2_self_benchmark_beta_one_alpha_zero _ _ (by decide)
      (by rw [sampleVar_example]; norm_num)⟩

/-- C3: with insufficient data every calculator degrades to its documented
all-zero result (and, being a total function, raises nothing): attribution
with an empty series or fewer than 2 aligned points returns the zero
`AttributionResult`; risk metrics with fewer than 2 non-missing returns
returns the zero `RiskMetrics`; time decay on an empty ledger returns the
zero-filled window dictionary. -/
theorem C3_insufficient_data_all_zero :
    (∀ (w e : ReturnSeries) (rf : ℚ),
        w = [] ∨ e = [] ∨ (alignSeries w e).length < 2 →
        calculate_alpha_beta w e rf = zeroAttribution) ∧
    (∀ (rs : List (Option ℝ)) (rf : ℝ) (ppy : ℕ),
        (rs.filterMap id).length < 2 →
        calculate_risk_metrics rs rf ppy = empty_metrics) ∧
    (∀ now : ℚ, time_decay_analysis [] now = empty_result) := by
  refine ⟨?_, ?_, ?_⟩
  · intro w e rf h
    unfold calculate_alpha_beta
    rcases h with h | h | h
    · rw [if_pos (Or.inl h)]
    · rw [if_pos (Or.inr h)]
    · by_cases hempty : w = [] ∨ e = []
      · rw [if_pos hempty]
      · rw [if_neg hempty, if_pos h]
  · intro rs rf ppy h
    unfold calculate_risk_metrics
    by_cases hlen : rs.length < 2
    · rw [if_pos hlen]
    · rw [if_neg hlen, if_pos h]
  · intro now
    rfl

/-- Closed instance of C3: one concrete insufficient input per calculator. -/
theorem C3_insufficient_data_witness :
    calculate_alpha_beta [((0 : ℤ), (1 : ℚ))] [((5 : ℤ), (1 : ℚ))] (1 / 25) =
      zeroAttribution ∧
    calculate_risk_metrics [none, some 1, none] (1 / 25) 252 = empty_metrics ∧
    time_decay_analysis [] 17 = empty_result :=
  ⟨C3_insufficient_data_all_zero.1 _ _ _ (Or.inr (Or.inr (by decide))),
   C3_insufficient_data_all_zero.2.1 _ _ _ (by simp),
   C3_insufficient_data_all_zero.2.2 17⟩

/-! Part: properties of the time-decay analyzer (C7) -/

/-- C7: the severe-decay alert is raised exactly when the 30-day win rate
is strictly below 0.7 times the all-time win rate and the all-time win
rate is strictly positive, for every ledger and reference instant. -/
theorem C7_severe_decay_alert_iff (trades : List TradeRecord) (now : ℚ) :
    DecayMetrics.severe_decay_alert
        (TimeDecayResult.decay_metrics (time_decay_analysis trades now)) =
      true ↔
    ((time_decay_analysis trades now).last_30d.win_rate <
        (time_decay_analysis trades now).all_time.win_rate * (7 / 10) ∧
      0 < (time_decay_analysis trades now).all_time.win_rate) := by
  unfold time_decay_analysis
  by_cases h : trades = []
  · simp [h, empty_result, calculate_decay_metrics, emptyPeriod]
  · simp only [if_neg h, calculate_decay_metrics]
    by_cases hwr : 0 < (periodStats trades).win_rate
    · simp [hwr]
    · simp [hwr]

/-! Part: properties of the behavior-tag classifier (C8–C10) -/

theorem mem_ite_nil {α : Type} {c : Prop} [Decidable c] {a : α}
    {l : List α} : a ∈ (if c then l else []) ↔ c ∧ a ∈ l := by
  split_ifs with h <;> simp [h]

theorem mem_ite_else {α : Type} {c : Prop} [Decidable c] {a : α}
    {l₁ l₂ : List α} :
    a ∈ (if c then l₁ else l₂) ↔ (c ∧ a ∈ l₁) ∨ (¬c ∧ a ∈ l₂) := by
  split_ifs with h <;> simp [h]

/-- C8: the Gambler tag is emitted iff trade frequency exceeds the
high-frequency threshold (10), win rate is below the low-win-rate
threshold (0.4), and profit factor is below 1.  In particular a profit
factor above 1.5 (which fails `profit_factor < 1`) never yields Gambler. -/
theorem C8_gambler_tag_iff (m : AnalysisResults) :
    TagName.gambler ∈ generate_behavior_tags m ↔
      (HIGH_FREQUENCY_THRESHOLD < m.trade_frequency.getD 0 ∧
        m.win_rate.getD 0 < LOW_WIN_RATE_THRESHOLD ∧
        m.profit_factor.getD 0 < 1) := by
  rcases hp : m.avg_time_before_pump with _ | t <;>
    · simp [generate_behavior_tags, holdTimeTags, oneHitTags, oneTokenTags,
        suspiciousTags, gamblerTags, sniperTags, conservativeTags,
        smartMoneyTags, decliningTags, activityTags, whaleTags, hp,
        mem_ite_nil, mem_ite_else]

/-- Master list: every run of the classifier produces a sublist of this
fixed duplicate-free list of tag names (rules fire in source order). -/
theorem tags_sublist_master (m : AnalysisResults) :
    List.Sublist (generate_behavior_tags m)
      [TagName.diamond_hands, TagName.paper_hands, TagName.one_hit_wonder,
        TagName.one_token_pony, TagName.suspicious, TagName.gambler,
        TagName.sniper, TagName.conservative, TagName.smart_money,
        TagName.declining, TagName.dormant, TagName.active_trader,
        TagName.whale] := by
  have h1 : List.Sublist (holdTimeTags m)
      [TagName.diamond_hands, TagName.paper_hands] := by
    simp only [holdTimeTags]
    split_ifs <;>
      first
        | exact List.nil_sublist _
        | exact List.singleton_sublist.mpr (by simp)
  have h2 : List.Sublist (oneHitTags m) [TagName.one_hit_wonder] := by
    simp only [oneHitTags]
    split_ifs <;>
      first
        | exact List.nil_sublist _
        | exact List.singleton_sublist.mpr (by simp)
  have h3 : List.Sublist (oneTokenTags m) [TagName.one_token_pony] := by
    simp only [oneTokenTags]
    split_ifs <;>
      first
        | exact List.nil_sublist _
        | exact List.singleton_sublist.mpr (by simp)
  have h4 : List.Sublist (suspiciousTags m) [TagName.suspicious] := by
    cases hm : m.avg_time_before_pump with
    | none => simp [suspiciousTags, hm]
    | some t =>
        simp only [suspiciousTags, hm]
        split_ifs <;>
          first
            | exact List.nil_sublist _
            | exact List.singleton_sublist.mpr (by simp)
  have h5 : List.Sublist (gamblerTags m) [TagName.gambler] := by
    simp only [gamblerTags]
    split_ifs <;>
      first
        | exact List.nil_sublist _
        | exact List.singleton_sublist.mpr (by simp)
  have h6 : List.Sublist (sniperTags m) [TagName.sniper] := by
    simp only [sniperTags]
    split_ifs <;>
      first
        | exact List.nil_sublist _
        | exact List.singleton_sublist.mpr (by simp)
  have h7 : List.Sublist (conservativeTags m) [TagName.conservative] := by
    simp only [conservativeTags]
    split_ifs <;>
      first
        | exact List.nil_sublist _
        | exact List.singleton_sublist.mpr (by simp)
  have h8 : List.Sublist (smartMoneyTags m) [TagName.smart_money] := by
    simp only [smartMoneyTags]
    split_ifs <;>
      first
        | exact List.nil_sublist _
        | exact List.singleton_sublist.mpr (by simp)
  have h9 : List.Sublist (decliningTags m) [TagName.declining] := by
    simp only [decliningTags]
    split_ifs <;>
      first
        | exact List.nil_sublist _
        | exact List.singleton_sublist.mpr (by simp)
  have h10 : List.Sublist (activityTags m)
      [TagName.dormant, TagName.active_trader] := by
    simp only [activityTags]
    split_ifs <;>
      first
        | exact List.nil_sublist _
        | exact List.singleton_sublist.mpr (by simp)
  have h11 : List.Sublist (whaleTags m) [TagName.whale] := by
    simp only [whaleTags]
    split_ifs <;>
      first
        | exact List.nil_sublist _
        | exact List.singleton_sublist.mpr (by simp)
  unfold generate_behavior_tags
  simp only [List.append_assoc]
  exact h1.append (h2.append (h3.append (h4.append (h5.append (h6.append
    (h7.append (h8.append (h9.append (h10.append h11)))))))))

/-- C9: the tag list never contains the same tag name twice. -/
theorem C9_no_duplicate_tags (m : AnalysisResults) :
    (generate_behavior_tags m).Nodup :=
  List.Nodup.sublist (tags_sublist_master m) (by decide)

/-- C10: when the metrics dictionary has no `avg_time_before_pump` key
(the default, `float('inf')`, fails the strict `< 60` test), the
Suspicious tag is never emitted. -/
theorem C10_no_suspicious_when_pump_missing (m : AnalysisResults)
    (h : m.avg_time_before_pump = none) :
    TagName.suspicious ∉ generate_behavior_tags m := by
  simp [generate_behavior_tags, holdTimeTags, oneHitTags, oneTokenTags,
    suspiciousTags, gamblerTags, sniperTags, conservativeTags,
    smartMoneyTags, decliningTags, activityTags, whaleTags, h,
    mem_ite_nil, mem_ite_else]

/-- Closed instance of C10 at the all-defaults (all keys missing)
dictionary. -/
theorem C10_no_suspicious_witness :
    ({} : AnalysisResults).avg_time_before_pump = none ∧
      TagName.suspicious ∉ generate_behavior_tags {} :=
  ⟨rfl, C10_no_suspicious_when_pump_missing {} rfl⟩

/-! Part: properties of the risk-metric calculator (C4–C6) -/

/-- On a series with at least two entries and no missing values, the
calculator reaches the main branch: the result is assembled from
`_calculate_manually` and `_calculate_additional_metrics`. -/
theorem calculate_risk_metrics_eq (r : List ℝ) (rf : ℝ) (ppy : ℕ)
    (hlen : 2 ≤ r.length) :
    calculate_risk_metrics (r.map some) rf ppy =
      ⟨ ManualMetrics.sharpe_ratio (calculate_manually r rf ppy),
        ManualMetrics.sortino_ratio (calculate_manually r rf ppy),
        (calculate_manually r rf ppy).max_drawdown,
        ManualMetrics.calmar_ratio (calculate_manually r rf ppy),
        (calculate_manually r rf ppy).annual_return,
        (calculate_manually r rf ppy).annual_volatility,
        (calculate_additional_metrics r).win_rate,
        (calculate_additional_metrics r).profit_factor,
        (calculate_additional_metrics r).expected_value,
        (calculate_additional_metrics r).max_win_streak,
        (calculate_additional_metrics r).max_loss_streak⟩ := by
  have hmap : (r.map some).filterMap id = r := by simp
  have h2 : ¬ (r.map some).length < 2 := by
    rw [List.length_map]; exact not_lt.mpr hlen
  simp only [calculate_risk_metrics, if_neg h2, hmap,
    if_neg (not_lt.mpr hlen)]

/-- Unfolded `sharpe_ratio` field of `_calculate_manually`. -/
theorem manual_sharpe_eq (r : List ℝ) (rf : ℝ) (ppy : ℕ) :
    ManualMetrics.sharpe_ratio (calculate_manually r rf ppy) =
      if 0 < stdDev r * Real.sqrt (ppy : ℝ) then
        mean (r.map (fun x => x - rf / (ppy : ℝ))) * (ppy : ℝ) /
          (stdDev r * Real.sqrt (ppy : ℝ))
      else 0 :=
  rfl

/-- Unfolded `max_drawdown` field of `_calculate_manually`. -/
theorem manual_max_drawdown_eq (r : List ℝ) (rf : ℝ) (ppy : ℕ) :
    (calculate_manually r rf ppy).max_drawdown =
      listMin 0 (List.zipWith (fun c m => (c - m) / m)
        (cumprod (r.map (fun x => 1 + x)))
        (cummax (cumprod (r.map (fun x => 1 + x))))) :=
  rfl

/-- Unfolded `profit_factor` field of `_calculate_additional_metrics`. -/
theorem additional_profit_factor_eq (r : List ℝ) :
    (calculate_additional_metrics r).profit_factor =
      if 0 < (r.filter (fun x => decide (0 < x))).length ∧
          0 < (r.filter (fun x => decide (x < 0))).length then
        if 0 < |mean (r.filter (fun x => decide (x < 0)))| then
          ((mean (r.filter (fun x => decide (0 < x))) /
              |mean (r.filter (fun x => decide (x < 0)))| : ℝ) : EReal)
        else ⊤
      else 0 :=
  rfl

/-- C4: a constant return series has zero sample variance, hence zero
annualized volatility, so the Sharpe ratio takes the degenerate-policy
value 0 (not a division by zero). -/
theorem C4_sharpe_zero_on_constant_series (r : List ℝ) (c rf : ℝ) (ppy : ℕ)
    (hlen : 2 ≤ r.length) (hconst : ∀ x ∈ r, x = c) :
    RiskMetrics.sharpe_ratio (calculate_risk_metrics (r.map some) rf ppy) =
      0 := by
  rw [calculate_risk_metrics_eq r rf ppy hlen]
  show ManualMetrics.sharpe_ratio (calculate_manually r rf ppy) = 0
  rw [manual_sharpe_eq]
  have hstd : stdDev r = 0 := by
    unfold stdDev
    rw [sampleVar_of_constant hconst, Real.sqrt_zero]
  rw [hstd, zero_mul, if_neg (lt_irrefl 0)]

/-- Closed instance of C4 at the constant-positive series `[2, 2, 2]`. -/
theorem C4_sharpe_zero_witness :
    2 ≤ ([(2 : ℝ), 2, 2]).length ∧
      RiskMetrics.sharpe_ratio
        (calculate_risk_metrics ([(2 : ℝ), 2, 2].map some) (1 / 25) 252) =
        0 :=
  ⟨by simp,
    C4_sharpe_zero_on_constant_series [(2 : ℝ), 2, 2] 2 (1 / 25) 252
      (by simp) (by intro x hx; simp at hx; exact hx)⟩

theorem scanProd_shape {α : Type} [Mul α] (a : α) (xs : List α) :
    ∃ t, scanProd a xs = a :: t := by
  cases xs <;> exact ⟨_, rfl⟩

theorem scanMax_shape {α : Type} [LinearOrder α] (a : α) (xs : List α) :
    ∃ t, scanMax a xs = a :: t := by
  cases xs <;> exact ⟨_, rfl⟩

theorem foldl_min_le_init {α : Type} [LinearOrder α] :
    ∀ (l : List α) (a : α), l.foldl min a ≤ a := by
  intro l
  induction l with
  | nil => intro a; exact le_refl a
  | cons x t ih => intro a; exact le_trans (ih (min a x)) (min_le_left a x)

theorem foldl_min_of_all_eq {α : Type} [LinearOrder α] :
    ∀ (l : List α) (a : α), (∀ x ∈ l, x = a) → l.foldl min a = a := by
  intro l
  induction l with
  | nil => intro a _; rfl
  | cons x t ih =>
      intro a h
      rw [List.foldl_cons, h x (List.mem_cons_self x t), min_self]
      exact ih a (fun y hy => h y (List.mem_cons_of_mem x hy))

/-- Running maxima of a list that increases along the accumulator: every
prefix maximum is the current element. -/
theorem scanMax_of_chain {α : Type} [LinearOrder α] :
    ∀ (xs : List α) (a : α), List.Chain (· ≤ ·) a xs →
      scanMax a xs = a :: xs := by
  intro xs
  induction xs with
  | nil => intro a _; rfl
  | cons x t ih =>
      intro a h
      cases h with
      | cons hax hc =>
          simp only [scanMax]
          rw [max_eq_right hax, ih x hc]

/-- Running products of a positive seed by factors that are at least one
form an increasing chain. -/
theorem chain_scanProd :
    ∀ (xs : List ℝ) (a : ℝ), 0 < a → (∀ x ∈ xs, 1 ≤ x) →
      ∃ t, scanProd a xs = a :: t ∧ List.Chain (· ≤ ·) a t := by
  intro xs
  induction xs with
  | nil => intro a _ _; exact ⟨[], rfl, List.Chain.nil⟩
  | cons x xs ih =>
      intro a ha h
      have hx : 1 ≤ x := h x (List.mem_cons_self x xs)
      have hax : a ≤ a * x := le_mul_of_one_le_right ha.le hx
      have hpos : 0 < a * x := mul_pos ha (lt_of_lt_of_le zero_lt_one hx)
      obtain ⟨t, ht, hc⟩ :=
        ih (a * x) hpos (fun y hy => h y (List.mem_cons_of_mem x hy))
      exact ⟨a * x :: t, by simp only [scanProd, ht],
        List.Chain.cons hax hc⟩

/-- C5: the maximum drawdown is never positive, and it is exactly 0 when
every return is positive (monotonically increasing wealth curve). -/
theorem C5_max_drawdown_nonpos (r : List ℝ) (rf : ℝ) (ppy : ℕ)
    (hlen : 2 ≤ r.length) :
    (calculate_risk_metrics (r.map some) rf ppy).max_drawdown ≤ 0 ∧
      ((∀ x ∈ r, 0 < x) →
        (calculate_risk_metrics (r.map some) rf ppy).max_drawdown = 0) := by
  have hproj : (calculate_risk_metrics (r.map some) rf ppy).max_drawdown =
      (calculate_manually r rf ppy).max_drawdown := by
    rw [calculate_risk_metrics_eq r rf ppy hlen]
  rw [hproj, manual_max_drawdown_eq]
  cases r with
  | nil => exact absurd hlen (by decide)
  | cons r0 rtail =>
      simp only [List.map_cons, cumprod]
      constructor
      · obtain ⟨t1, ht1⟩ := scanProd_shape (1 + r0) (rtail.map (fun x => 1 + x))
        rw [ht1]
        show listMin 0 (List.zipWith _ ((1 + r0) :: t1)
          (scanMax (1 + r0) t1)) ≤ 0
        obtain ⟨t2, ht2⟩ := scanMax_shape (1 + r0) t1
        rw [ht2, List.zipWith_cons_cons, sub_self, zero_div]
        exact foldl_min_le_init _ 0
      · intro hpos
        have h0 : 0 < 1 + r0 := by
          have := hpos r0 (List.mem_cons_self r0 rtail)
          linarith
        have h1 : ∀ y ∈ rtail.map (fun x => 1 + x), 1 ≤ y := by
          intro y hy
          rcases List.mem_map.mp hy with ⟨x, hx, rfl⟩
          have := hpos x (List.mem_cons_of_mem r0 hx)
          linarith
        obtain ⟨t, ht, hc⟩ :=
          chain_scanProd (rtail.map (fun x => 1 + x)) (1 + r0) h0 h1
        rw [ht]
        show listMin 0 (List.zipWith _ ((1 + r0) :: t)
          (scanMax (1 + r0) t)) = 0
        rw [scanMax_of_chain t (1 + r0) hc, zipWith_self]
        simp only [List.map_cons, sub_self, zero_div, listMin]
        apply foldl_min_of_all_eq
        intro y hy
        rcases List.mem_map.mp hy with ⟨x, _, rfl⟩
        rfl

/-- Closed instance of C5 at the all-positive series `[1, 2]`. -/
theorem C5_max_drawdown_witness :
    2 ≤ ([(1 : ℝ), 2]).length ∧
      (calculate_risk_metrics ([(1 : ℝ), 2].map some) (1 / 25) 252).max_drawdown
        ≤ 0 ∧
      (calculate_risk_metrics ([(1 : ℝ), 2].map some) (1 / 25) 252).max_drawdown
        = 0 :=
  ⟨by simp,
    (C5_max_drawdown_nonpos [(1 : ℝ), 2] (1 / 25) 252 (by simp)).1,
    (C5_max_drawdown_nonpos [(1 : ℝ), 2] (1 / 25) 252 (by simp)).2
      (by
        intro x hx
        rcases List.mem_cons.mp hx with rfl | hx
        · norm_num
        · rcases List.mem_singleton.mp hx with rfl
          norm_num)⟩

theorem sum_neg_of_all_neg :
    ∀ l : List ℝ, l ≠ [] → (∀ x ∈ l, x < 0) → l.sum < 0 := by
  intro l
  induction l with
  | nil => intro h _; exact absurd rfl h
  | cons x t ih =>
      intro _ h
      rcases eq_or_ne t [] with rfl | ht
      · simpa using h x (List.mem_cons_self x [])
      · have hx : x < 0 := h x (List.mem_cons_self x t)
        have hs : t.sum < 0 := ih ht (fun y hy => h y (List.mem_cons_of_mem x hy))
        rw [List.sum_cons]
        linarith

theorem mean_neg_of_all_neg (l : List ℝ) (hne : l ≠ [])
    (h : ∀ x ∈ l, x < 0) : mean l < 0 := by
  have hn : (0 : ℝ) < l.length := by
    exact_mod_cast List.length_pos.mpr hne
  exact div_neg_of_neg_of_pos (sum_neg_of_all_neg l hne h) hn

/-- C6: the profit factor is always a finite real (never the infinite
element, which models IEEE infinity): it equals
`mean(wins) / |mean(losses)|` when both winning and losing periods exist,
and takes the consistent finite sentinel 0 in every other case (no wins
and no losses, wins without losses, losses without wins). -/
theorem C6_profit_factor_finite (r : List ℝ) (rf : ℝ) (ppy : ℕ)
    (hlen : 2 ≤ r.length) :
    (∃ q : ℝ,
      (calculate_risk_metrics (r.map some) rf ppy).profit_factor =
        (q : EReal)) ∧
    (((∃ x ∈ r, 0 < x) ∧ (∃ x ∈ r, x < 0)) →
      (calculate_risk_metrics (r.map some) rf ppy).profit_factor =
        ((mean (r.filter (fun x => decide (0 < x))) /
            |mean (r.filter (fun x => decide (x < 0)))| : ℝ) : EReal)) ∧
    (¬ ((∃ x ∈ r, 0 < x) ∧ (∃ x ∈ r, x < 0)) →
      (calculate_risk_metrics (r.map some) rf ppy).profit_factor =
        (0 : EReal)) := by
  have hproj : (calculate_risk_metrics (r.map some) rf ppy).profit_factor =
      (calculate_additional_metrics r).profit_factor := by
    rw [calculate_risk_metrics_eq r rf ppy hlen]
  rw [hproj, additional_profit_factor_eq]
  have hwin : 0 < (r.filter (fun x => decide (0 < x))).length ↔
      ∃ x ∈ r, 0 < x := by
    rw [← List.countP_eq_length_filter]
    simp [List.countP_pos_iff]
  have hlose : 0 < (r.filter (fun x => decide (x < 0))).length ↔
      ∃ x ∈ r, x < 0 := by
    rw [← List.countP_eq_length_filter]
    simp [List.countP_pos_iff]
  by_cases hb : (∃ x ∈ r, 0 < x) ∧ (∃ x ∈ r, x < 0)
  · have hcond : 0 < (r.filter (fun x => decide (0 < x))).length ∧
        0 < (r.filter (fun x => decide (x < 0))).length :=
      ⟨hwin.mpr hb.1, hlose.mpr hb.2⟩
    have hlneg : mean (r.filter (fun x => decide (x < 0))) < 0 := by
      apply mean_neg_of_all_neg
      · intro hnil
        rw [hnil] at hcond
        exact absurd hcond.2 (by simp)
      · intro x hx
        have := List.of_mem_filter hx
        simpa using this
    have habs : 0 < |mean (r.filter (fun x => decide (x < 0)))| :=
      abs_pos.mpr (ne_of_lt hlneg)
    rw [if_pos hcond, if_pos habs]
    exact ⟨⟨_, rfl⟩, fun _ => rfl, fun hcontra => absurd hb hcontra⟩
  · have hcond : ¬ (0 < (r.filter (fun x => decide (0 < x))).length ∧
        0 < (r.filter (fun x => decide (x < 0))).length) := by
      intro hc
      exact hb ⟨hwin.mp hc.1, hlose.mp hc.2⟩
    rw [if_neg hcond]
    exact ⟨⟨0, by simp⟩, fun hcontra => absurd hcontra hb, fun _ => rfl⟩

/-- Closed instance of C6 at the series `[1, -1/2]` (one win, one loss). -/
theorem C6_profit_factor_witness :
    2 ≤ ([(1 : ℝ), -(1 / 2)]).length ∧
      ((∃ x ∈ [(1 : ℝ), -(1 / 2)], 0 < x) ∧
        (∃ x ∈ [(1 : ℝ), -(1 / 2)], x < 0)) ∧
      (∃ q : ℝ,
        (calculate_risk_metrics ([(1 : ℝ), -(1 / 2)].map some)
            (1 / 25) 252).profit_factor = (q : EReal)) ∧
      (calculate_risk_metrics ([(1 : ℝ), -(1 / 2)].map some)
          (1 / 25) 252).profit_factor =
        ((mean ([(1 : ℝ), -(1 / 2)].filter (fun x => decide (0 < x))) /
            |mean ([(1 : ℝ), -(1 / 2)].filter (fun x => decide (x < 0)))| :
          ℝ) : EReal) :=
  ⟨by simp,
    ⟨⟨1, by simp, by norm_num⟩, ⟨-(1 / 2), by simp, by norm_num⟩⟩,
    (C6_profit_factor_finite [(1 : ℝ), -(1 / 2)] (1 / 25) 252 (by simp)).1,
    (C6_profit_factor_finite [(1 : ℝ), -(1 / 2)] (1 / 25) 252 (by simp)).2.1
      ⟨⟨1, by simp, by norm_num⟩, ⟨-(1 / 2), by simp, by norm_num⟩⟩⟩

end TraderDNA
